import Mathlib

/-!
Verification of the Gantt-chart generator against its specification.

The development shallowly embeds the three source files of the repository:

* `Public/main.js` — the calendar-position resolver `findTodayColumnPosition`
  together with its helper `getWeek`.  The resolver manipulates JavaScript
  `Date` values only through `new Date(y, m, d)`, date subtraction (whole
  days), `getDate`, `getDay`/`getUTCDay`, `getFullYear`/`getUTCFullYear` and
  `toLocaleString('en-US', {month: 'short'\x7d)`.  The `Date` builtin is
  modelled by proleptic-Gregorian day numbers (days since 1970-01-01):
  `jsMakeDay` is ECMA-262 MakeDay, `civilFromDays` recovers the civil triple
  (ECMA YearFromTime / MonthFromTime / DateFromTime), `weekdayOfDay` is
  ECMA WeekDay.  Dates are handled at midnight; fractional values are exact
  rationals rather than IEEE doubles.
* `server.js` — the retrying completion-call helper `callGemini` and the
  file-extraction step of the `/generate-chart` endpoint.  The network and
  the docx converter are oracles supplied as function arguments.
-/

/-! ## Calendar model (JavaScript `Date` builtin) -/

/-- Gregorian leap-year rule: divisible by 4, and not by 100 unless also
by 400 (as in ECMA-262 DaysInYear). -/
def isLeap (y : Int) : Bool := y % 4 == 0 && (y % 100 != 0 || y % 400 == 0)

/-- Day number (days since 1970-01-01) of January 1 of year `y`
(ECMA-262 DayFromYear). -/
def daysBeforeYear (y : Int) : Int :=
  365 * (y - 1970) + ((y-1) / 4 - (y-1) / 100 + (y-1) / 400) - 477

/-- Candidate chain for the year containing day `n`, centered at the linear
approximation `y0`; the true year is always within the scanned window
(proved in `yearFromDayAux_sandwich`). -/
def yearFromDayAux (n y0 : Int) : Int :=
  if n < daysBeforeYear (y0 - 1) then y0 - 2
  else if n < daysBeforeYear y0 then y0 - 1
  else if n < daysBeforeYear (y0 + 1) then y0
  else if n < daysBeforeYear (y0 + 2) then y0 + 1
  else y0 + 2

/-- Year containing day number `n`: the unique `y` with
`daysBeforeYear y ≤ n < daysBeforeYear (y + 1)` (ECMA-262 YearFromTime). -/
def yearFromDay (n : Int) : Int := yearFromDayAux n (1970 + (400 * n) / 146097)

/-- Days in year `y` before the first day of month `m` (1..12);
ECMA-262 day-within-year month table. -/
def daysToMonth (y : Int) (m : Int) : Int :=
  let L : Int := if isLeap y then 1 else 0
  if m = 1 then 0 else if m = 2 then 31 else if m = 3 then 59 + L
  else if m = 4 then 90 + L else if m = 5 then 120 + L else if m = 6 then 151 + L
  else if m = 7 then 181 + L else if m = 8 then 212 + L else if m = 9 then 243 + L
  else if m = 10 then 273 + L else if m = 11 then 304 + L else if m = 12 then 334 + L
  else 0

/-- Number of days of month `m` (1..12) of year `y`. -/
def daysInMonth (y : Int) (m : Int) : Int :=
  if m = 1 then 31 else if m = 2 then (if isLeap y then 29 else 28) else if m = 3 then 31
  else if m = 4 then 30 else if m = 5 then 31 else if m = 6 then 30
  else if m = 7 then 31 else if m = 8 then 31 else if m = 9 then 30
  else if m = 10 then 31 else if m = 11 then 30 else if m = 12 then 31
  else 0

/-- ECMA-262 MakeDay: day number produced by `new Date(y, m0, d)` /
`Date.UTC(y, m0, d)` with 0-based month `m0` (overflowing months carry into
the year, day 0 is the last day of the previous month, etc.). -/
def jsMakeDay (y m0 d : Int) : Int :=
  let y2 := y + m0 / 12
  let m2 := m0 % 12 + 1
  daysBeforeYear y2 + daysToMonth y2 m2 + (d - 1)

/-- Month/day lookup within a year from a 0-based day-of-year offset
(ECMA-262 MonthFromTime / DateFromTime table). -/
def civilChain (y doy : Int) : Int × Int × Int :=
  let L : Int := if isLeap y then 1 else 0
  if doy < 31 then (y, 1, doy + 1)
  else if doy < 59 + L then (y, 2, doy - 31 + 1)
  else if doy < 90 + L then (y, 3, doy - (59 + L) + 1)
  else if doy < 120 + L then (y, 4, doy - (90 + L) + 1)
  else if doy < 151 + L then (y, 5, doy - (120 + L) + 1)
  else if doy < 181 + L then (y, 6, doy - (151 + L) + 1)
  else if doy < 212 + L then (y, 7, doy - (181 + L) + 1)
  else if doy < 243 + L then (y, 8, doy - (212 + L) + 1)
  else if doy < 273 + L then (y, 9, doy - (243 + L) + 1)
  else if doy < 304 + L then (y, 10, doy - (273 + L) + 1)
  else if doy < 334 + L then (y, 11, doy - (304 + L) + 1)
  else (y, 12, doy - (334 + L) + 1)

/-- Civil date (year, month 1..12, day 1..31) of day number `n`. -/
def civilFromDays (n : Int) : Int × Int × Int :=
  civilChain (yearFromDay n) (n - daysBeforeYear (yearFromDay n))

/-- `Date.prototype.getDate` of a date holding day number `n`. -/
def jsGetDate (n : Int) : Int := (civilFromDays n).2.2

/-- `Date.prototype.getDay` / `getUTCDay`: weekday of day number `n`,
0 = Sunday .. 6 = Saturday (1970-01-01 was a Thursday). -/
def weekdayOfDay (n : Int) : Int := (n + 4) % 7

/-- A calendar reference date as the resolver receives it ("today"):
the `getFullYear` / `getMonth` + 1 / `getDate` components of a JS `Date`. -/
structure GDate where
  year : Int
  month : Int
  day : Int
deriving DecidableEq

/-- A valid calendar date: month 1..12 and day within the month. -/
def GDate.Valid (d : GDate) : Prop :=
  1 ≤ d.month ∧ d.month ≤ 12 ∧ 1 ≤ d.day ∧ d.day ≤ daysInMonth d.year d.month

instance : DecidablePred GDate.Valid := fun d => by
  unfold GDate.Valid
  infer_instance

/-- Day number of a `GDate` (its JS timestamp divided by 86400000). -/
def GDate.dayNumber (d : GDate) : Int := jsMakeDay d.year (d.month - 1) d.day

/-! ## String handling (`main.js` regular expressions and labels) -/

/-- JavaScript `\d`: the ASCII digits 0-9. -/
def isDigitChar (c : Char) : Bool := 48 ≤ c.toNat && c.toNat ≤ 57

/-- The regular-expression class `[A-Za-z]`: ASCII letters. -/
def isAlphaChar (c : Char) : Bool :=
  (65 ≤ c.toNat && c.toNat ≤ 90) || (97 ≤ c.toNat && c.toNat ≤ 122)

/-- JavaScript `\s` for the characters that can occur in column labels. -/
def isJsSpace (c : Char) : Bool :=
  c == ' ' || c == '\t' || c == '\n' || c == '\r' || c == '\x0b' || c == '\x0c'

/-- Test for the regular expression `^\d{4}$` (Year columns, e.g. "2025"). -/
def matchYearCol (s : String) : Bool :=
  match s.toList with
  | [a, b, c, d] => isDigitChar a && isDigitChar b && isDigitChar c && isDigitChar d
  | _ => false

/-- Test for the regular expression `^Q[1-4]\s\d{4}$` (Quarter columns,
e.g. "Q4 2025"). -/
def matchQuarterCol (s : String) : Bool :=
  match s.toList with
  | [q, n, sp, a, b, c, d] =>
    q == 'Q' && (49 ≤ n.toNat && n.toNat ≤ 52) && isJsSpace sp &&
      (isDigitChar a && isDigitChar b && isDigitChar c && isDigitChar d)
  | _ => false

/-- Test for the regular expression `^[A-Za-z]{3}\s\d{4}$` (Month columns,
e.g. "Nov 2025"). -/
def matchMonthCol (s : String) : Bool :=
  match s.toList with
  | [x, y, z, sp, a, b, c, d] =>
    isAlphaChar x && isAlphaChar y && isAlphaChar z && isJsSpace sp &&
      (isDigitChar a && isDigitChar b && isDigitChar c && isDigitChar d)
  | _ => false

/-- Test for the regular expression `^W\d{1,2}\s\d{4}$` (Week columns,
e.g. "W46 2025"). -/
def matchWeekCol (s : String) : Bool :=
  match s.toList with
  | [w, n, sp, a, b, c, d] =>
    w == 'W' && isDigitChar n && isJsSpace sp &&
      (isDigitChar a && isDigitChar b && isDigitChar c && isDigitChar d)
  | [w, n1, n2, sp, a, b, c, d] =>
    w == 'W' && isDigitChar n1 && isDigitChar n2 && isJsSpace sp &&
      (isDigitChar a && isDigitChar b && isDigitChar c && isDigitChar d)
  | _ => false

/-- `toLocaleString('en-US', {month: 'short'\x7d)`: English three-letter
abbreviation of month `m` (1..12). -/
def monthShortName (m : Int) : String :=
  if m = 1 then "Jan" else if m = 2 then "Feb" else if m = 3 then "Mar"
  else if m = 4 then "Apr" else if m = 5 then "May" else if m = 6 then "Jun"
  else if m = 7 then "Jul" else if m = 8 then "Aug" else if m = 9 then "Sep"
  else if m = 10 then "Oct" else if m = 11 then "Nov" else if m = 12 then "Dec"
  else ""

/-- JavaScript `Array.prototype.indexOf` on string arrays: index of the
first occurrence of `s`, or -1 when absent. -/
def jsIndexOf (l : List String) (s : String) : Int :=
  match l with
  | [] => -1
  | x :: xs =>
    if x = s then 0
    else
      let r := jsIndexOf xs s
      if r = -1 then -1 else r + 1

/-! ## The calendar-position resolver (`main.js` lines 324-387) -/

/-- Return value of `findTodayColumnPosition`:
`{index, percentage}` in the source. -/
structure TodayPosition where
  index : Int
  percentage : ℚ
deriving DecidableEq

/-- `getWeek` from `main.js`: ISO-8601 week number, computed by shifting to
the Thursday of the date's (Monday-based) week and dividing the day-of-year
by 7, rounding up.  `Math.ceil(x / 7)` on an integer `x` is `(x + 6) / 7`
in floor division. -/
def getWeek (date : GDate) : Int :=
  let n := date.dayNumber
  let dayNum := if weekdayOfDay n = 0 then 7 else weekdayOfDay n
  let n2 := n + (4 - dayNum)
  let yearStart := jsMakeDay (yearFromDay n2) 0 1
  ((n2 - yearStart) + 1 + 6) / 7

/-- `findTodayColumnPosition` from `main.js`: column index and fractional
offset of the reference date `today` within `timeColumns`. -/
def findTodayColumnPosition (today : GDate) (timeColumns : List String) : Option TodayPosition :=
  match timeColumns with
  | [] => none
  | firstCol :: _ =>
    let todayYear := today.year
    if matchYearCol firstCol then
      let todayYearStr := toString todayYear
      let index := jsIndexOf timeColumns todayYearStr
      if index = -1 then none
      else
        let startOfYear := jsMakeDay todayYear 0 1
        let endOfYear := jsMakeDay todayYear 11 31
        let dayOfYear : ℚ := ((today.dayNumber - startOfYear : Int) : ℚ)
        let totalDays : ℚ := ((endOfYear - startOfYear : Int) : ℚ)
        some { index := index, percentage := dayOfYear / totalDays }
    else if matchQuarterCol firstCol then
      let month := today.month - 1
      let quarter := month / 3 + 1
      let todayQuarterStr := "Q" ++ toString quarter ++ " " ++ toString todayYear
      let index := jsIndexOf timeColumns todayQuarterStr
      if index = -1 then none
      else
        let quarterStartMonth := (quarter - 1) * 3
        let startOfQuarter := jsMakeDay todayYear quarterStartMonth 1
        let endOfQuarter := jsMakeDay todayYear (quarterStartMonth + 3) 0
        let dayInQuarter : ℚ := ((today.dayNumber - startOfQuarter : Int) : ℚ)
        let totalDays : ℚ := ((endOfQuarter - startOfQuarter : Int) : ℚ)
        some { index := index, percentage := dayInQuarter / totalDays }
    else if matchMonthCol firstCol then
      let todayMonthStr := monthShortName today.month ++ " " ++ toString todayYear
      let index := jsIndexOf timeColumns todayMonthStr
      if index = -1 then none
      else
        let endOfMonth := jsMakeDay todayYear (today.month - 1 + 1) 0
        let dayInMonth : ℚ := (today.day : ℚ)
        let totalDays : ℚ := ((jsGetDate endOfMonth : Int) : ℚ)
        some { index := index, percentage := dayInMonth / totalDays }
    else if matchWeekCol firstCol then
      let todayWeekStr := "W" ++ toString (getWeek today) ++ " " ++ toString todayYear
      let index := jsIndexOf timeColumns todayWeekStr
      if index = -1 then none
      else
        let dayOfWeek := weekdayOfDay today.dayNumber
        some { index := index, percentage := ((dayOfWeek : ℚ) + 1/2) / 7 }
    else none

/-! ## Spec-side calendar quantities (from the wording of the spec) -/

/-- Days in year `y` per the spec wording: 366 iff `y` is divisible by 4,
and not by 100 unless also by 400; 365 otherwise. -/
def daysInYearSpec (y : Int) : Int :=
  if y % 4 = 0 ∧ (y % 100 ≠ 0 ∨ y % 400 = 0) then 366 else 365

/-- 1-based ordinal of the date within its year (Jan 1 ↦ 1). -/
def dayOfYearSpec (d : GDate) : Int := daysToMonth d.year d.month + d.day

/-- Quarter (1..4) of month `m` (1..12): the spec's ⌈m/3⌉. -/
def quarterOfSpec (m : Int) : Int := (m - 1) / 3 + 1

/-- First month (1-based) of the quarter containing month `m`. -/
def quarterStartMonthSpec (m : Int) : Int := 3 * ((m - 1) / 3) + 1

/-- Days elapsed between the first day of the quarter and the date. -/
def daysSinceQuarterStart (d : GDate) : Int :=
  daysToMonth d.year d.month + d.day -
    (daysToMonth d.year (quarterStartMonthSpec d.month) + 1)

/-- Total days of quarter `q` (1..4) of year `y`, from actual month lengths
(the spec's quarter day-count, accounting for leap February). -/
def quarterSpanSpec (y q : Int) : Int :=
  daysInMonth y (3 * (q - 1) + 1) + daysInMonth y (3 * (q - 1) + 2) +
    daysInMonth y (3 * (q - 1) + 3)

/-- The label the resolver searches `timeColumns` for, by the granularity of
the first column (none when the first column matches no pattern). -/
def targetLabel (d : GDate) (firstCol : String) : Option String :=
  if matchYearCol firstCol then some (toString d.year)
  else if matchQuarterCol firstCol then
    some ("Q" ++ toString ((d.month - 1) / 3 + 1) ++ " " ++ toString d.year)
  else if matchMonthCol firstCol then
    some (monthShortName d.month ++ " " ++ toString d.year)
  else if matchWeekCol firstCol then
    some ("W" ++ toString (getWeek d) ++ " " ++ toString d.year)
  else none

/-! ## The completion-call helper (`server.js` lines 29-71)

The network is modelled as an oracle `fetch : Nat → FetchResponse` giving the
response observed by attempt number, and `JSON.parse` of the extracted text as
an oracle `parse`.  `callGemini` returns the result together with the list of
back-off sleeps (in milliseconds) it performed between attempts. -/

/-- One element of `content.parts`. -/
structure GPart where
  text : String

/-- `candidates[i].content`. -/
structure GContent where
  parts : List GPart

/-- One element of `candidates[i].safetyRatings`. -/
structure SafetyRating where
  blocked : Bool
  category : String

/-- One element of `result.candidates`. -/
structure Candidate where
  content : Option GContent
  safetyRatings : Option (List SafetyRating)

/-- The decoded JSON envelope of a successful HTTP response. -/
structure ApiResult where
  candidates : Option (List Candidate)

/-- What one `fetch` of the completion endpoint produces. -/
structure FetchResponse where
  ok : Bool
  status : Int
  body : String
  result : ApiResult

/-- The errors `callGemini` can throw on one attempt. -/
inductive CallError where
  | apiStatus (status : Int) (body : String)
  | invalidResponse
  | safetyBlocked (category : String)
  | jsError
  | parseFailed (msg : String)
  | allRetriesFailed
deriving DecidableEq

/-- The body of one loop iteration of `callGemini`: classify the response,
check the envelope and the safety ratings, and parse the first candidate's
first content part.  `.error` is a thrown exception, caught by the retry
loop. -/
def processAttempt {α : Type} (parse : String → Except String α)
    (resp : FetchResponse) : Except CallError α :=
  if resp.ok = false then .error (.apiStatus resp.status resp.body)
  else
    match resp.result.candidates with
    | none => .error .invalidResponse
    | some [] => .error .invalidResponse
    | some (c0 :: _) =>
      match c0.content with
      | none => .error .invalidResponse
      | some content =>
        match (c0.safetyRatings.getD []).find? (fun r => r.blocked) with
        | some r => .error (.safetyBlocked r.category)
        | none =>
          match content.parts with
          | [] => .error .jsError
          | p :: _ =>
            match parse p.text with
            | .error msg => .error (.parseFailed msg)
            | .ok v => .ok v

/-- The retry loop of `callGemini`, with `remaining` iterations left and
`attempt` the 0-based number of the current iteration.  On a failed attempt
other than the last it sleeps `1000 * (attempt + 1)` ms; on the last it
rethrows the error. -/
def callGeminiAux {α : Type} (fetch : Nat → FetchResponse)
    (parse : String → Except String α) :
    Nat → Nat → Except CallError α × List Int
  | _, 0 => (.error .allRetriesFailed, [])
  | attempt, remaining + 1 =>
    match processAttempt parse (fetch attempt) with
    | .ok v => (.ok v, [])
    | .error e =>
      if remaining = 0 then (.error e, [])
      else
        let r := callGeminiAux fetch parse (attempt + 1) remaining
        (r.1, (1000 * ((attempt : Int) + 1)) :: r.2)

/-- `callGemini(payload)` with the default retry budget of 3 attempts. -/
def callGemini {α : Type} (fetch : Nat → FetchResponse)
    (parse : String → Except String α) : Except CallError α × List Int :=
  callGeminiAux fetch parse 0 3

/-! ## The `/generate-chart` extraction step (`server.js` lines 81-99)

Uploaded files carry a name, a MIME type and their bytes; the body of a
non-docx file stands for its UTF-8 decoding, and `mammoth.extractRawText` is
an oracle `extractDocx` from the file bytes that may fail. -/

/-- One uploaded file as multer delivers it. -/
structure UploadFile where
  originalname : String
  mimetype : String
  buffer : String
deriving DecidableEq

/-- The word-processing MIME type that is converted rather than decoded. -/
def docxMime : String :=
  "application/vnd.openxmlformats-officedocument.wordprocessingml.document"

/-- Text extracted from one file: docx files through the converter oracle,
anything else read as UTF-8. -/
def extractFileText (extractDocx : String → Except String String)
    (f : UploadFile) : Except String String :=
  if f.mimetype = docxMime then extractDocx f.buffer else .ok f.buffer

/-- The delimiter pair wrapped around one file's text in the corpus. -/
def wrapFile (name text : String) : String :=
  "\n\n--- Start of file: " ++ name ++ " ---\n" ++ text ++
    "\n--- End of file: " ++ name ++ " ---\n"

/-- `files.sort((a, b) => a.originalname.localeCompare(b.originalname))`:
stable sort of the uploads by file name. -/
def sortByName (files : List UploadFile) : List UploadFile :=
  List.insertionSort (fun a b => a.originalname ≤ b.originalname) files

/-- The extraction loop: walk the sorted files accumulating the corpus text
and the file-name cache; the first extraction error aborts the request. -/
def extractResearchGo (extractDocx : String → Except String String) :
    List UploadFile → String → List String → Except String (String × List String)
  | [], text, names => .ok (text, names)
  | f :: fs, text, names =>
    match extractFileText extractDocx f with
    | .error e => .error e
    | .ok t =>
      extractResearchGo extractDocx fs (text ++ wrapFile f.originalname t)
        (names ++ [f.originalname])

/-- The whole extraction step of `/generate-chart`: sort, then concatenate
the wrapped texts (research corpus, file-name cache). -/
def extractResearch (extractDocx : String → Except String String)
    (files : List UploadFile) : Except String (String × List String) :=
  extractResearchGo extractDocx (sortByName files) "" []

/-- Spec-side corpus: concatenation of each file's text wrapped in its
delimiter pair, in list order. -/
def corpusOf (textOf : UploadFile → String) : List UploadFile → String
  | [] => ""
  | f :: fs => wrapFile f.originalname (textOf f) ++ corpusOf textOf fs

/-! ## Calendar lemmas -/

theorem isLeap_spec (y : Int) :
    isLeap y = true ↔ (y % 4 = 0 ∧ (y % 100 ≠ 0 ∨ y % 400 = 0)) := by
  simp [isLeap]

theorem daysBeforeYear_mono {a b : Int} (h : a ≤ b) :
    daysBeforeYear a ≤ daysBeforeYear b := by
  simp only [daysBeforeYear]
  omega

theorem daysBeforeYear_succ (y : Int) :
    daysBeforeYear (y + 1) = daysBeforeYear y + (if isLeap y then 366 else 365) := by
  by_cases h : isLeap y = true
  · rw [if_pos h]
    rw [isLeap_spec] at h
    simp only [daysBeforeYear]
    omega
  · rw [if_neg h]
    rw [isLeap_spec] at h
    simp only [daysBeforeYear]
    omega

theorem yearFromDayAux_sandwich (n y0 : Int)
    (h1 : 146097 * (y0 - 1970) ≤ 400 * n)
    (h2 : 400 * n < 146097 * (y0 - 1970) + 146097) :
    daysBeforeYear (yearFromDayAux n y0) ≤ n ∧
      n < daysBeforeYear (yearFromDayAux n y0 + 1) := by
  simp only [yearFromDayAux, daysBeforeYear]
  split_ifs <;> constructor <;> (try ring_nf) <;> (try ring_nf at *) <;> omega

theorem yearFromDay_sandwich (n : Int) :
    daysBeforeYear (yearFromDay n) ≤ n ∧ n < daysBeforeYear (yearFromDay n + 1) := by
  exact yearFromDayAux_sandwich n _ (by omega) (by omega)

theorem yearFromDay_eq (n y : Int) (h1 : daysBeforeYear y ≤ n)
    (h2 : n < daysBeforeYear (y + 1)) : yearFromDay n = y := by
  obtain ⟨s1, s2⟩ := yearFromDay_sandwich n
  rcases lt_trichotomy (yearFromDay n) y with h | h | h
  · exact absurd (daysBeforeYear_mono (by omega : yearFromDay n + 1 ≤ y)) (by omega)
  · exact h
  · exact absurd (daysBeforeYear_mono (by omega : y + 1 ≤ yearFromDay n)) (by omega)

theorem dayOffset_nonneg (y m d : Int) (hm1 : 1 ≤ m) (hm2 : m ≤ 12)
    (hd1 : 1 ≤ d) (hd2 : d ≤ daysInMonth y m) :
    0 ≤ daysToMonth y m + (d - 1) := by
  interval_cases m <;> norm_num [daysToMonth, daysInMonth] at hd2 ⊢ <;>
    (try split_ifs at hd2 ⊢) <;> omega

theorem dayOffset_lt (y m d : Int) (hm1 : 1 ≤ m) (hm2 : m ≤ 12)
    (hd1 : 1 ≤ d) (hd2 : d ≤ daysInMonth y m) :
    daysToMonth y m + (d - 1) < daysBeforeYear (y + 1) - daysBeforeYear y := by
  have hsucc := daysBeforeYear_succ y
  by_cases hL : isLeap y = true
  · rw [if_pos hL] at hsucc
    interval_cases m <;> (try norm_num [daysToMonth, daysInMonth, hL] at hd2) <;>
      (try norm_num [daysToMonth, daysInMonth, hL]) <;> omega
  · have hL2 : isLeap y = false := by revert hL; cases isLeap y <;> simp
    rw [if_neg hL] at hsucc
    interval_cases m <;> (try norm_num [daysToMonth, daysInMonth, hL2] at hd2) <;>
      (try norm_num [daysToMonth, daysInMonth, hL2]) <;> omega

theorem civilFromDays_shift (y doy : Int) (h0 : 0 ≤ doy)
    (hlt : doy < daysBeforeYear (y + 1) - daysBeforeYear y) :
    civilFromDays (daysBeforeYear y + doy) = civilChain y doy := by
  have hy : yearFromDay (daysBeforeYear y + doy) = y := by
    apply yearFromDay_eq <;> omega
  simp only [civilFromDays, hy]
  congr 1
  ring

theorem lastDayOfMonth_day (y mm : Int) (h1 : 1 ≤ mm) (h2 : mm ≤ 12) :
    (civilFromDays (jsMakeDay y mm 0)).2.2 = daysInMonth y mm := by
  have hsucc := daysBeforeYear_succ y
  by_cases hL : isLeap y = true
  · rw [if_pos hL] at hsucc
    interval_cases mm <;>
      (try rw [show jsMakeDay y 12 0 = daysBeforeYear y + 365 by
        norm_num [jsMakeDay, daysToMonth]; omega]) <;>
      (try norm_num [jsMakeDay, daysToMonth, hL]) <;>
      (try rw [add_assoc]) <;> (try norm_num) <;>
      rw [civilFromDays_shift y _ (by omega) (by omega)] <;>
      norm_num [civilChain, daysInMonth, hL]
  · have hL2 : isLeap y = false := by revert hL; cases isLeap y <;> simp
    rw [if_neg hL] at hsucc
    interval_cases mm <;>
      (try rw [show jsMakeDay y 12 0 = daysBeforeYear y + 364 by
        norm_num [jsMakeDay, daysToMonth]; omega]) <;>
      (try norm_num [jsMakeDay, daysToMonth, hL2]) <;>
      (try rw [add_assoc]) <;> (try norm_num) <;>
      rw [civilFromDays_shift y _ (by omega) (by omega)] <;>
      norm_num [civilChain, daysInMonth, hL2]

/-- Day number of a valid date, written without month normalization. -/
theorem dayNumber_eq (d : GDate) (hv : d.Valid) :
    d.dayNumber = daysBeforeYear d.year + daysToMonth d.year d.month + (d.day - 1) := by
  obtain ⟨hm1, hm2, _, _⟩ := hv
  have h1 : (d.month - 1) / 12 = 0 := by omega
  have h2 : (d.month - 1) % 12 = d.month - 1 := by omega
  simp only [GDate.dayNumber, jsMakeDay, h1, h2]
  norm_num

/-! ## `jsIndexOf` lemmas -/

theorem jsIndexOf_nonneg_or (l : List String) (s : String) :
    jsIndexOf l s = -1 ∨ 0 ≤ jsIndexOf l s := by
  induction l with
  | nil => simp [jsIndexOf]
  | cons x xs ih =>
    by_cases hx : x = s
    · simp [jsIndexOf, hx]
    · simp only [jsIndexOf, if_neg hx]
      rcases ih with h | h
      · simp [h]
      · by_cases hr : jsIndexOf xs s = -1
        · simp [hr]
        · simp only [if_neg hr]
          omega

theorem jsIndexOf_eq_neg1_iff (l : List String) (s : String) :
    jsIndexOf l s = -1 ↔ s ∉ l := by
  induction l with
  | nil => simp [jsIndexOf]
  | cons x xs ih =>
    by_cases hx : x = s
    · simp [jsIndexOf, hx]
    · simp only [jsIndexOf, if_neg hx]
      by_cases hr : jsIndexOf xs s = -1
      · simp only [hr, if_pos rfl, List.mem_cons]
        constructor
        · intro _ h
          rcases h with h | h
          · exact hx h.symm
          · exact (ih.mp hr) h
        · intro _
          rfl
      · simp only [if_neg hr, List.mem_cons]
        constructor
        · intro h
          exfalso
          have : 0 ≤ jsIndexOf xs s := by
            rcases jsIndexOf_nonneg_or xs s with h2 | h2
            · exact absurd h2 hr
            · exact h2
          omega
        · intro h
          exact absurd (ih.mpr (fun hmem => h (Or.inr hmem))) hr

theorem jsIndexOf_lt_length (l : List String) (s : String) :
    jsIndexOf l s = -1 ∨ (0 ≤ jsIndexOf l s ∧ jsIndexOf l s < l.length) := by
  induction l with
  | nil => simp [jsIndexOf]
  | cons x xs ih =>
    by_cases hx : x = s
    · simp [jsIndexOf, hx]
    · simp only [jsIndexOf, if_neg hx, List.length_cons]
      rcases ih with h | ⟨h1, h2⟩
      · simp [h]
      · by_cases hr : jsIndexOf xs s = -1
        · simp [hr]
        · simp only [if_neg hr]
          right
          constructor
          · omega
          · push_cast
            omega

/-! ## Pattern lemmas: the four column formats are mutually exclusive -/

theorem matchYearCol_length (s : String) (h : matchYearCol s = true) :
    s.toList.length = 4 := by
  unfold matchYearCol at h
  split at h
  · simp_all
  · simp at h

theorem matchQuarterCol_length (s : String) (h : matchQuarterCol s = true) :
    s.toList.length = 7 := by
  unfold matchQuarterCol at h
  split at h
  · simp_all
  · simp at h

theorem matchMonthCol_length (s : String) (h : matchMonthCol s = true) :
    s.toList.length = 8 := by
  unfold matchMonthCol at h
  split at h
  · simp_all
  · simp at h

theorem matchWeekCol_length (s : String) (h : matchWeekCol s = true) :
    s.toList.length = 7 ∨ s.toList.length = 8 := by
  unfold matchWeekCol at h
  split at h
  · left; simp_all
  · right; simp_all
  · simp at h

theorem matchQuarterCol_year (s : String) (h : matchQuarterCol s = true) :
    matchYearCol s = false := by
  rcases Bool.eq_false_or_eq_true (matchYearCol s) with ht | hf
  · have := matchYearCol_length s ht
    have := matchQuarterCol_length s h
    omega
  · exact hf

theorem matchMonthCol_year (s : String) (h : matchMonthCol s = true) :
    matchYearCol s = false := by
  rcases Bool.eq_false_or_eq_true (matchYearCol s) with ht | hf
  · have := matchYearCol_length s ht
    have := matchMonthCol_length s h
    omega
  · exact hf

theorem matchMonthCol_quarter (s : String) (h : matchMonthCol s = true) :
    matchQuarterCol s = false := by
  rcases Bool.eq_false_or_eq_true (matchQuarterCol s) with ht | hf
  · have := matchQuarterCol_length s ht
    have := matchMonthCol_length s h
    omega
  · exact hf

theorem matchWeekCol_year (s : String) (h : matchWeekCol s = true) :
    matchYearCol s = false := by
  rcases Bool.eq_false_or_eq_true (matchYearCol s) with ht | hf
  · have := matchYearCol_length s ht
    rcases matchWeekCol_length s h with h2 | h2 <;> omega
  · exact hf

theorem matchWeekCol_quarter (s : String) (h : matchWeekCol s = true) :
    matchQuarterCol s = false := by
  unfold matchWeekCol at h
  split at h
  case _ w n sp a b c d heq =>
    rcases Bool.eq_false_or_eq_true (matchQuarterCol s) with ht | hf
    · exfalso
      simp only [Bool.and_eq_true, beq_iff_eq] at h
      have hw : w = 'W' := h.1.1.1
      subst hw
      unfold matchQuarterCol at ht
      rw [heq] at ht
      simp at ht
    · exact hf
  case _ w n1 n2 sp a b c d heq =>
    rcases Bool.eq_false_or_eq_true (matchQuarterCol s) with ht | hf
    · have := matchQuarterCol_length s ht
      rw [heq] at this
      simp at this
    · exact hf
  case _ => simp at h

theorem matchWeekCol_month (s : String) (h : matchWeekCol s = true) :
    matchMonthCol s = false := by
  unfold matchWeekCol at h
  split at h
  case _ w n sp a b c d heq =>
    rcases Bool.eq_false_or_eq_true (matchMonthCol s) with ht | hf
    · have := matchMonthCol_length s ht
      rw [heq] at this
      simp at this
    · exact hf
  case _ w n1 n2 sp a b c d heq =>
    rcases Bool.eq_false_or_eq_true (matchMonthCol s) with ht | hf
    · exfalso
      simp only [Bool.and_eq_true, beq_iff_eq, isDigitChar, decide_eq_true_eq] at h
      have hd : 48 ≤ n1.toNat ∧ n1.toNat ≤ 57 := h.1.1.1.2
      unfold matchMonthCol at ht
      rw [heq] at ht
      simp only [Bool.and_eq_true, Bool.or_eq_true, isAlphaChar, isDigitChar,
        decide_eq_true_eq] at ht
      have ha := ht.1.1.1.2
      omega
    · exact hf
  case _ => simp at h

/-! ## Resolver branch-evaluation lemmas -/

theorem jsIndexOf_ne_neg1 (l : List String) (s : String) (h : s ∈ l) :
    ¬ jsIndexOf l s = -1 :=
  fun he => (jsIndexOf_eq_neg1_iff l s).mp he h

theorem startOfYear_eq (y : Int) : jsMakeDay y 0 1 = daysBeforeYear y := by
  norm_num [jsMakeDay, daysToMonth]

theorem yearSpan_eq (y : Int) :
    jsMakeDay y 11 31 - jsMakeDay y 0 1 = daysInYearSpec y - 1 := by
  by_cases hp : (y % 4 = 0 ∧ (y % 100 ≠ 0 ∨ y % 400 = 0))
  · have hb := (isLeap_spec y).mpr hp
    rw [daysInYearSpec, if_pos hp]
    norm_num [jsMakeDay, daysToMonth, hb] <;> omega
  · have hb : isLeap y = false := by
      rcases Bool.eq_false_or_eq_true (isLeap y) with ht | hf
      · exact absurd ((isLeap_spec y).mp ht) hp
      · exact hf
    rw [daysInYearSpec, if_neg hp]
    norm_num [jsMakeDay, daysToMonth, hb] <;> omega

theorem dayOfYear_diff (d : GDate) (hv : d.Valid) :
    d.dayNumber - jsMakeDay d.year 0 1 = dayOfYearSpec d - 1 := by
  rw [dayNumber_eq d hv, startOfYear_eq]
  unfold dayOfYearSpec
  omega

/-- Evaluation of the resolver's Year branch: the fraction is
(day-of-year − 1) / (days-in-year − 1). -/
theorem resolver_year_eval (d : GDate) (hv : d.Valid) (c : String)
    (rest : List String) (hc : matchYearCol c = true)
    (hmem : toString d.year ∈ c :: rest) :
    findTodayColumnPosition d (c :: rest) =
      some ⟨jsIndexOf (c :: rest) (toString d.year),
            ((dayOfYearSpec d - 1 : Int) : ℚ) /
              ((daysInYearSpec d.year - 1 : Int) : ℚ)⟩ := by
  have hidx := jsIndexOf_ne_neg1 (c :: rest) (toString d.year) hmem
  simp only [findTodayColumnPosition, hc, if_true, if_neg hidx]
  rw [dayOfYear_diff d hv, yearSpan_eq]

theorem quarterStart_diff (d : GDate) (hv : d.Valid) :
    d.dayNumber - jsMakeDay d.year (((d.month - 1) / 3 + 1 - 1) * 3) 1 =
      daysSinceQuarterStart d := by
  obtain ⟨hm1, hm2, hd1, hd2⟩ := hv
  rw [dayNumber_eq d ⟨hm1, hm2, hd1, hd2⟩]
  unfold daysSinceQuarterStart quarterStartMonthSpec
  by_cases hL : isLeap d.year = true
  · set m := d.month with hm
    interval_cases m <;> norm_num [jsMakeDay, daysToMonth, hL] <;> omega
  · have hL2 : isLeap d.year = false := by
      revert hL; cases isLeap d.year <;> simp
    set m := d.month with hm
    interval_cases m <;> norm_num [jsMakeDay, daysToMonth, hL2] <;> omega

theorem quarterSpan_diff (d : GDate) (hv : d.Valid) :
    jsMakeDay d.year (((d.month - 1) / 3 + 1 - 1) * 3 + 3) 0 -
        jsMakeDay d.year (((d.month - 1) / 3 + 1 - 1) * 3) 1 =
      quarterSpanSpec d.year ((d.month - 1) / 3 + 1) - 1 := by
  obtain ⟨hm1, hm2, hd1, hd2⟩ := hv
  have hsucc := daysBeforeYear_succ d.year
  unfold quarterSpanSpec
  by_cases hL : isLeap d.year = true
  · rw [if_pos hL] at hsucc
    set m := d.month with hm
    interval_cases m <;>
      norm_num [jsMakeDay, daysToMonth, daysInMonth, hL] <;> omega
  · have hL2 : isLeap d.year = false := by
      revert hL; cases isLeap d.year <;> simp
    rw [if_neg hL] at hsucc
    set m := d.month with hm
    interval_cases m <;>
      norm_num [jsMakeDay, daysToMonth, daysInMonth, hL2] <;> omega

/-- Evaluation of the resolver's Quarter branch: the fraction divides by one
less than the quarter's day count. -/
theorem resolver_quarter_eval (d : GDate) (hv : d.Valid) (c : String)
    (rest : List String) (hc : matchQuarterCol c = true)
    (hmem : "Q" ++ toString (quarterOfSpec d.month) ++ " " ++ toString d.year ∈ c :: rest) :
    findTodayColumnPosition d (c :: rest) =
      some ⟨jsIndexOf (c :: rest)
              ("Q" ++ toString (quarterOfSpec d.month) ++ " " ++ toString d.year),
            ((daysSinceQuarterStart d : Int) : ℚ) /
              ((quarterSpanSpec d.year (quarterOfSpec d.month) - 1 : Int) : ℚ)⟩ := by
  have hyc := matchQuarterCol_year c hc
  rw [quarterOfSpec] at hmem ⊢
  have hidx := jsIndexOf_ne_neg1 _ _ hmem
  simp only [findTodayColumnPosition, hc, hyc, if_true, Bool.false_eq_true, if_false]
  rw [if_neg hidx, quarterStart_diff d hv, quarterSpan_diff d hv]

theorem monthSpan_eq (d : GDate) (hv : d.Valid) :
    jsGetDate (jsMakeDay d.year (d.month - 1 + 1) 0) = daysInMonth d.year d.month := by
  have h := lastDayOfMonth_day d.year d.month hv.1 hv.2.1
  rw [show d.month - 1 + 1 = d.month from by ring]
  exact h

/-- Evaluation of the resolver's Month branch: the fraction is
day-of-month / days-in-month. -/
theorem resolver_month_eval (d : GDate) (hv : d.Valid) (c : String)
    (rest : List String) (hc : matchMonthCol c = true)
    (hmem : monthShortName d.month ++ " " ++ toString d.year ∈ c :: rest) :
    findTodayColumnPosition d (c :: rest) =
      some ⟨jsIndexOf (c :: rest) (monthShortName d.month ++ " " ++ toString d.year),
            ((d.day : Int) : ℚ) / ((daysInMonth d.year d.month : Int) : ℚ)⟩ := by
  have hyc := matchMonthCol_year c hc
  have hqc := matchMonthCol_quarter c hc
  have hidx := jsIndexOf_ne_neg1 _ _ hmem
  simp only [findTodayColumnPosition, hc, hyc, hqc, if_true, Bool.false_eq_true, if_false]
  rw [if_neg hidx, monthSpan_eq d hv]

/-- Evaluation of the resolver's Week branch: the fraction is
(weekday + 1/2) / 7, weekday 0 = Sunday .. 6 = Saturday. -/
theorem resolver_week_eval (d : GDate) (c : String) (rest : List String)
    (hc : matchWeekCol c = true)
    (hmem : "W" ++ toString (getWeek d) ++ " " ++ toString d.year ∈ c :: rest) :
    findTodayColumnPosition d (c :: rest) =
      some ⟨jsIndexOf (c :: rest) ("W" ++ toString (getWeek d) ++ " " ++ toString d.year),
            (((weekdayOfDay d.dayNumber : Int) : ℚ) + 1/2) / 7⟩ := by
  have hyc := matchWeekCol_year c hc
  have hqc := matchWeekCol_quarter c hc
  have hmc := matchWeekCol_month c hc
  have hidx := jsIndexOf_ne_neg1 _ _ hmem
  simp only [findTodayColumnPosition, hc, hyc, hqc, hmc, if_true, Bool.false_eq_true,
    if_false]
  rw [if_neg hidx]

/-- When the first column matches none of the four formats the resolver
returns null. -/
theorem resolver_unrecognized (d : GDate) (c : String) (rest : List String)
    (h1 : matchYearCol c = false) (h2 : matchQuarterCol c = false)
    (h3 : matchMonthCol c = false) (h4 : matchWeekCol c = false) :
    findTodayColumnPosition d (c :: rest) = none := by
  simp only [findTodayColumnPosition, h1, h2, h3, h4, Bool.false_eq_true, if_false]

/-- When the target label is absent from the columns the resolver returns
null. -/
theorem resolver_miss (d : GDate) (c : String) (rest : List String) (lbl : String)
    (hl : targetLabel d c = some lbl) (hmem : lbl ∉ c :: rest) :
    findTodayColumnPosition d (c :: rest) = none := by
  unfold targetLabel at hl
  by_cases h1 : matchYearCol c = true
  · rw [if_pos h1] at hl
    obtain rfl : toString d.year = lbl := by injection hl
    simp only [findTodayColumnPosition, h1, if_true]
    rw [if_pos ((jsIndexOf_eq_neg1_iff _ _).mpr hmem)]
  · have h1f : matchYearCol c = false := by
      revert h1; cases matchYearCol c <;> simp
    rw [if_neg h1] at hl
    by_cases h2 : matchQuarterCol c = true
    · rw [if_pos h2] at hl
      obtain rfl : "Q" ++ toString ((d.month - 1) / 3 + 1) ++ " " ++ toString d.year = lbl := by
        injection hl
      simp only [findTodayColumnPosition, h1f, h2, if_true, Bool.false_eq_true, if_false]
      rw [if_pos ((jsIndexOf_eq_neg1_iff _ _).mpr hmem)]
    · have h2f : matchQuarterCol c = false := by
        revert h2; cases matchQuarterCol c <;> simp
      rw [if_neg h2] at hl
      by_cases h3 : matchMonthCol c = true
      · rw [if_pos h3] at hl
        obtain rfl : monthShortName d.month ++ " " ++ toString d.year = lbl := by
          injection hl
        simp only [findTodayColumnPosition, h1f, h2f, h3, if_true, Bool.false_eq_true,
          if_false]
        rw [if_pos ((jsIndexOf_eq_neg1_iff _ _).mpr hmem)]
      · have h3f : matchMonthCol c = false := by
          revert h3; cases matchMonthCol c <;> simp
        rw [if_neg h3] at hl
        by_cases h4 : matchWeekCol c = true
        · rw [if_pos h4] at hl
          obtain rfl : "W" ++ toString (getWeek d) ++ " " ++ toString d.year = lbl := by
            injection hl
          simp only [findTodayColumnPosition, h1f, h2f, h3f, h4, if_true,
            Bool.false_eq_true, if_false]
          rw [if_pos ((jsIndexOf_eq_neg1_iff _ _).mpr hmem)]
        · rw [if_neg h4] at hl
          exact absurd hl (by simp)

/-! ## Bounds for the returned fraction -/

theorem daysInYearSpec_eq (y : Int) :
    daysInYearSpec y = if isLeap y then 366 else 365 := by
  by_cases hp : (y % 4 = 0 ∧ (y % 100 ≠ 0 ∨ y % 400 = 0))
  · rw [daysInYearSpec, if_pos hp, if_pos ((isLeap_spec y).mpr hp)]
  · have hb : isLeap y = false := by
      rcases Bool.eq_false_or_eq_true (isLeap y) with ht | hf
      · exact absurd ((isLeap_spec y).mp ht) hp
      · exact hf
    rw [daysInYearSpec, if_neg hp, hb]
    simp

theorem daysInYearSpec_ge (y : Int) : 365 ≤ daysInYearSpec y := by
  rw [daysInYearSpec]
  split_ifs <;> omega

theorem dayOfYearSpec_bounds (d : GDate) (hv : d.Valid) :
    1 ≤ dayOfYearSpec d ∧ dayOfYearSpec d ≤ daysInYearSpec d.year := by
  obtain ⟨hm1, hm2, hd1, hd2⟩ := hv
  have h1 := dayOffset_nonneg d.year d.month d.day hm1 hm2 hd1 hd2
  have h2 := dayOffset_lt d.year d.month d.day hm1 hm2 hd1 hd2
  have h3 := daysBeforeYear_succ d.year
  have h4 := daysInYearSpec_eq d.year
  unfold dayOfYearSpec
  rcases Bool.eq_false_or_eq_true (isLeap d.year) with hb | hb <;>
    rw [hb] at h3 h4 <;> simp at h3 h4 <;> omega

theorem quarter_bounds (d : GDate) (hv : d.Valid) :
    0 ≤ daysSinceQuarterStart d ∧
      daysSinceQuarterStart d ≤ quarterSpanSpec d.year (quarterOfSpec d.month) - 1 ∧
      90 ≤ quarterSpanSpec d.year (quarterOfSpec d.month) := by
  obtain ⟨hm1, hm2, hd1, hd2⟩ := hv
  unfold daysSinceQuarterStart quarterStartMonthSpec quarterSpanSpec quarterOfSpec
  by_cases hL : isLeap d.year = true
  · set m := d.month with hm
    interval_cases m <;>
      norm_num [daysToMonth, daysInMonth, hL] at hd2 ⊢ <;> omega
  · have hL2 : isLeap d.year = false := by
      revert hL; cases isLeap d.year <;> simp
    set m := d.month with hm
    interval_cases m <;>
      norm_num [daysToMonth, daysInMonth, hL2] at hd2 ⊢ <;> omega

theorem daysInMonth_ge (y m : Int) (hm1 : 1 ≤ m) (hm2 : m ≤ 12) :
    28 ≤ daysInMonth y m := by
  interval_cases m <;> norm_num [daysInMonth] <;> split_ifs <;> omega

theorem weekday_bounds (n : Int) : 0 ≤ weekdayOfDay n ∧ weekdayOfDay n ≤ 6 := by
  unfold weekdayOfDay
  omega

theorem ratDiv_bounds (a b : Int) (h0 : 0 ≤ a) (hab : a ≤ b) (hb : 0 < b) :
    0 ≤ ((a : Int) : ℚ) / ((b : Int) : ℚ) ∧ ((a : Int) : ℚ) / ((b : Int) : ℚ) ≤ 1 := by
  constructor
  · apply div_nonneg
    · exact_mod_cast h0
    · exact_mod_cast le_of_lt hb
  · rw [div_le_one (by exact_mod_cast hb)]
    exact_mod_cast hab

/-! ## Extraction-step lemmas -/

theorem extractResearchGo_ok (extractDocx : String → Except String String)
    (textOf : UploadFile → String) (l : List UploadFile)
    (h : ∀ f ∈ l, extractFileText extractDocx f = .ok (textOf f)) :
    ∀ (acc : String) (ns : List String),
      extractResearchGo extractDocx l acc ns =
        .ok (acc ++ corpusOf textOf l, ns ++ l.map UploadFile.originalname) := by
  induction l with
  | nil =>
    intro acc ns
    simp [extractResearchGo, corpusOf]
  | cons f fs ih =>
    intro acc ns
    have hf := h f (List.mem_cons_self f fs)
    simp only [extractResearchGo, hf]
    rw [ih (fun g hg => h g (List.mem_cons_of_mem f hg))]
    simp [corpusOf, String.append_assoc]

theorem extractResearchGo_error (extractDocx : String → Except String String)
    (l : List UploadFile)
    (h : ∃ f ∈ l, ∃ e, extractFileText extractDocx f = .error e) :
    ∀ (acc : String) (ns : List String),
      ∃ e, extractResearchGo extractDocx l acc ns = .error e := by
  induction l with
  | nil =>
    obtain ⟨f, hf, _⟩ := h
    exact absurd hf (List.not_mem_nil f)
  | cons f fs ih =>
    intro acc ns
    obtain ⟨g, hg, e, he⟩ := h
    rcases List.mem_cons.mp hg with rfl | hg2
    · simp only [extractResearchGo, he]
      exact ⟨e, rfl⟩
    · cases hft : extractFileText extractDocx f with
      | error e2 =>
        simp only [extractResearchGo, hft]
        exact ⟨e2, rfl⟩
      | ok t =>
        simp only [extractResearchGo, hft]
        exact ih ⟨g, hg2, e, he⟩ _ _

/-! ## Claims -/

/-- C2: for a Year-granularity column set, the resolver's target label is the
reference year rendered as a decimal string, and when present the fraction is
(day-of-year − 1) / (days-in-year − 1), with days-in-year 366 exactly under
the standard Gregorian leap rule (`daysInYearSpec`). -/
theorem claim_C2 (d : GDate) (hv : d.Valid) (c : String) (rest : List String)
    (hc : matchYearCol c = true) (hmem : toString d.year ∈ c :: rest) :
    findTodayColumnPosition d (c :: rest) =
      some ⟨jsIndexOf (c :: rest) (toString d.year),
            ((dayOfYearSpec d - 1 : Int) : ℚ) /
              ((daysInYearSpec d.year - 1 : Int) : ℚ)⟩ :=
  resolver_year_eval d hv c rest hc hmem

/-- C2 witness: July 2 of non-leap 2025 in a "2025" year column sits at
fraction exactly 1/2 (day 183 of 365). -/
theorem claim_C2_witness :
    findTodayColumnPosition ⟨2025, 7, 2⟩ ["2025"] = some ⟨0, 1/2⟩ := by
  rw [claim_C2 ⟨2025, 7, 2⟩ (by decide) "2025" [] (by decide) (by decide)]
  norm_num [show dayOfYearSpec ⟨2025, 7, 2⟩ = 183 from by decide,
    show daysInYearSpec 2025 = 365 from by decide,
    show jsIndexOf ["2025"] (toString (2025 : Int)) = 0 from by decide]

/-- C3 counterexample: for April 15 2025 over ["Q1 2025", "Q2 2025"] the code
returns fraction 14/90 = 7/45, but the claim's formula (days elapsed since
the quarter's first day over the quarter's month-length day count) gives
14/91; the two differ. -/
theorem claim_C3_counterexample :
    findTodayColumnPosition ⟨2025, 4, 15⟩ ["Q1 2025", "Q2 2025"] =
        some ⟨1, 7/45⟩ ∧
      ((daysSinceQuarterStart ⟨2025, 4, 15⟩ : Int) : ℚ) /
          ((quarterSpanSpec 2025 2 : Int) : ℚ) = 14/91 ∧
      (7 : ℚ)/45 ≠ 14/91 := by
  refine ⟨?_, ?_, by norm_num⟩
  · rw [resolver_quarter_eval ⟨2025, 4, 15⟩ (by decide) "Q1 2025" ["Q2 2025"]
      (by decide) (by decide)]
    norm_num [show daysSinceQuarterStart ⟨2025, 4, 15⟩ = 14 from by decide,
      show quarterSpanSpec 2025 (quarterOfSpec 4) = 91 from by decide,
      show jsIndexOf ["Q1 2025", "Q2 2025"]
        ("Q" ++ toString (quarterOfSpec (4 : Int)) ++ " " ++ toString (2025 : Int)) = 1
        from by decide]
  · norm_num [show daysSinceQuarterStart ⟨2025, 4, 15⟩ = 14 from by decide,
      show quarterSpanSpec 2025 2 = 91 from by decide]

/-- C3 (amended): for a Quarter-granularity column set the target label is
Q⟨⌈month/3⌉⟩ ⟨year⟩, and when present the fraction is (days elapsed since the
quarter's first day) divided by (the quarter's day count − 1), the quarter
day count coming from actual month lengths including leap February. -/
theorem claim_C3_amended (d : GDate) (hv : d.Valid) (c : String)
    (rest : List String) (hc : matchQuarterCol c = true)
    (hmem : "Q" ++ toString (quarterOfSpec d.month) ++ " " ++ toString d.year ∈ c :: rest) :
    findTodayColumnPosition d (c :: rest) =
      some ⟨jsIndexOf (c :: rest)
              ("Q" ++ toString (quarterOfSpec d.month) ++ " " ++ toString d.year),
            ((daysSinceQuarterStart d : Int) : ℚ) /
              ((quarterSpanSpec d.year (quarterOfSpec d.month) - 1 : Int) : ℚ)⟩ :=
  resolver_quarter_eval d hv c rest hc hmem

/-- C3 witness: April 15 2025 over ["Q1 2025", "Q2 2025"] yields index 1 and
fraction 14/90 = 7/45. -/
theorem claim_C3_witness :
    findTodayColumnPosition ⟨2025, 4, 15⟩ ["Q1 2025", "Q2 2025"] =
      some ⟨1, 7/45⟩ := by
  rw [claim_C3_amended ⟨2025, 4, 15⟩ (by decide) "Q1 2025" ["Q2 2025"]
    (by decide) (by decide)]
  norm_num [show daysSinceQuarterStart ⟨2025, 4, 15⟩ = 14 from by decide,
    show quarterSpanSpec 2025 (quarterOfSpec 4) = 91 from by decide,
    show jsIndexOf ["Q1 2025", "Q2 2025"]
      ("Q" ++ toString (quarterOfSpec (4 : Int)) ++ " " ++ toString (2025 : Int)) = 1
      from by decide]

/-- C4: for a Month-granularity column set the target label is the English
three-letter month abbreviation, a space and the 4-digit year, and when
present the fraction is day-of-month / days-in-month. -/
theorem claim_C4 (d : GDate) (hv : d.Valid) (c : String) (rest : List String)
    (hc : matchMonthCol c = true)
    (hmem : monthShortName d.month ++ " " ++ toString d.year ∈ c :: rest) :
    findTodayColumnPosition d (c :: rest) =
      some ⟨jsIndexOf (c :: rest) (monthShortName d.month ++ " " ++ toString d.year),
            ((d.day : Int) : ℚ) / ((daysInMonth d.year d.month : Int) : ℚ)⟩ :=
  resolver_month_eval d hv c rest hc hmem

/-- C4 witness: November 13 2025 over ["Nov 2025"] yields index 0 and
fraction 13/30. -/
theorem claim_C4_witness :
    findTodayColumnPosition ⟨2025, 11, 13⟩ ["Nov 2025"] = some ⟨0, 13/30⟩ := by
  rw [claim_C4 ⟨2025, 11, 13⟩ (by decide) "Nov 2025" [] (by decide) (by decide)]
  norm_num [show daysInMonth 2025 11 = 30 from by decide,
    show jsIndexOf ["Nov 2025"] (monthShortName 11 ++ " " ++ toString (2025 : Int)) = 0
      from by decide]

/-- C5: for a Week-granularity column set the target label is
W⟨getWeek⟩ ⟨year⟩ — `getWeek` being the ISO-8601 week number computed by
shifting to the nearest Thursday and dividing days-since-year-start by 7 —
and when present the fraction is (weekday + 0.5) / 7 with weekday
0 = Sunday .. 6 = Saturday. -/
theorem claim_C5 (d : GDate) (c : String) (rest : List String)
    (hc : matchWeekCol c = true)
    (hmem : "W" ++ toString (getWeek d) ++ " " ++ toString d.year ∈ c :: rest) :
    findTodayColumnPosition d (c :: rest) =
      some ⟨jsIndexOf (c :: rest) ("W" ++ toString (getWeek d) ++ " " ++ toString d.year),
            (((weekdayOfDay d.dayNumber : Int) : ℚ) + 1/2) / 7⟩ :=
  resolver_week_eval d c rest hc hmem

/-- C5 witness: November 13 2025 (a Thursday, ISO week 46) over
["W46 2025"] yields index 0 and fraction (4 + 0.5)/7 = 9/14. -/
theorem claim_C5_witness :
    findTodayColumnPosition ⟨2025, 11, 13⟩ ["W46 2025"] = some ⟨0, 9/14⟩ := by
  rw [claim_C5 ⟨2025, 11, 13⟩ "W46 2025" [] (by decide) (by decide)]
  norm_num [show weekdayOfDay (GDate.dayNumber ⟨2025, 11, 13⟩) = 4 from by decide,
    show jsIndexOf ["W46 2025"]
      ("W" ++ toString (getWeek ⟨2025, 11, 13⟩) ++ " " ++ toString (2025 : Int)) = 0
      from by decide]

/-- C6: when the computed target label of a recognized granularity is absent
from the columns the resolver returns null; over ["W46 2025"] the result is
non-null exactly when the reference date's week label is "W46 2025". -/
theorem claim_C6 :
    (∀ (d : GDate) (c : String) (rest : List String) (lbl : String),
        targetLabel d c = some lbl → lbl ∉ c :: rest →
        findTodayColumnPosition d (c :: rest) = none) ∧
    (∀ d : GDate,
        (findTodayColumnPosition d ["W46 2025"]).isSome = true ↔
          "W" ++ toString (getWeek d) ++ " " ++ toString d.year = "W46 2025") := by
  constructor
  · exact resolver_miss
  · intro d
    constructor
    · intro hs
      by_contra hne
      have hl : targetLabel d "W46 2025" =
          some ("W" ++ toString (getWeek d) ++ " " ++ toString d.year) := by
        simp only [targetLabel, show matchYearCol "W46 2025" = false from by decide,
          show matchQuarterCol "W46 2025" = false from by decide,
          show matchMonthCol "W46 2025" = false from by decide,
          show matchWeekCol "W46 2025" = true from by decide, if_true,
          Bool.false_eq_true, if_false]
      have hmem : ("W" ++ toString (getWeek d) ++ " " ++ toString d.year) ∉
          ["W46 2025"] := fun hm => hne (List.mem_singleton.mp hm)
      rw [resolver_miss d "W46 2025" [] _ hl hmem] at hs
      simp at hs
    · intro hlbl
      have hmem : "W" ++ toString (getWeek d) ++ " " ++ toString d.year ∈
          ["W46 2025"] := by
        rw [hlbl]
        exact List.mem_singleton.mpr rfl
      rw [resolver_week_eval d "W46 2025" [] (by decide) hmem]
      rfl

/-- C6 witness: a 2025 reference date over a year chart that only covers 2024
misses and yields null. -/
theorem claim_C6_witness :
    findTodayColumnPosition ⟨2025, 11, 13⟩ ["2024"] = none :=
  claim_C6.1 ⟨2025, 11, 13⟩ "2024" [] "2025" (by decide) (by decide)

/-- C7: the resolver is a total function into an option type — every call
produces null or a position — and when the first column matches none of the
four granularity patterns it returns null for every reference date. -/
theorem claim_C7 (d : GDate) (cols : List String) :
    (findTodayColumnPosition d cols = none ∨
      ∃ p, findTodayColumnPosition d cols = some p) ∧
    (∀ c rest, cols = c :: rest →
      matchYearCol c = false → matchQuarterCol c = false →
      matchMonthCol c = false → matchWeekCol c = false →
      findTodayColumnPosition d cols = none) := by
  constructor
  · cases h : findTodayColumnPosition d cols with
    | none => exact Or.inl rfl
    | some p => exact Or.inr ⟨p, rfl⟩
  · intro c rest hc h1 h2 h3 h4
    subst hc
    exact resolver_unrecognized d c rest h1 h2 h3 h4

/-- C7 witness: the malformed column set ["abc"] yields null. -/
theorem claim_C7_witness :
    findTodayColumnPosition ⟨2025, 1, 1⟩ ["abc"] = none :=
  (claim_C7 ⟨2025, 1, 1⟩ ["abc"]).2 "abc" [] rfl (by decide) (by decide)
    (by decide) (by decide)

/-- C10: calling the resolver with an empty column list returns null rather
than raising, for every reference date. -/
theorem claim_C10 (d : GDate) : findTodayColumnPosition d [] = none := rfl

/-- C1 counterexample: on the last day of a year column the returned
fraction is exactly 1, not < 1 — December 31 2025 over ["2025"] returns
{index 0, fraction 1}, and 1 < 1 is false. -/
theorem claim_C1_counterexample :
    findTodayColumnPosition ⟨2025, 12, 31⟩ ["2025"] = some ⟨0, 1⟩ ∧
      ¬ ((1 : ℚ) < 1) := by
  constructor
  · rw [resolver_year_eval ⟨2025, 12, 31⟩ (by decide) "2025" [] (by decide) (by decide)]
    norm_num [show dayOfYearSpec ⟨2025, 12, 31⟩ = 365 from by decide,
      show daysInYearSpec 2025 = 365 from by decide,
      show jsIndexOf ["2025"] (toString (2025 : Int)) = 0 from by decide]
  · norm_num

/-- C1 (amended): whenever the resolver returns a non-null result for a
valid reference date, the index is an integer ≥ 0 that is a valid position
into `timeColumns`, and the fraction lies in the closed interval [0, 1]; it
attains 1 on the final day of a Year, Quarter or Month column (week
fractions stay strictly below 1). -/
theorem claim_C1_amended (d : GDate) (hv : d.Valid) (cols : List String)
    (p : TodayPosition) (h : findTodayColumnPosition d cols = some p) :
    0 ≤ p.index ∧ p.index < cols.length ∧
      0 ≤ p.percentage ∧ p.percentage ≤ 1 := by
  cases cols with
  | nil => simp [findTodayColumnPosition] at h
  | cons c rest =>
    by_cases h1 : matchYearCol c = true
    · simp only [findTodayColumnPosition, h1, if_true] at h
      by_cases hidx : jsIndexOf (c :: rest) (toString d.year) = -1
      · rw [if_pos hidx] at h
        simp at h
      · rw [if_neg hidx] at h
        obtain rfl := Option.some.inj h
        have hb := dayOfYearSpec_bounds d hv
        have hg := daysInYearSpec_ge d.year
        have hidxb := jsIndexOf_lt_length (c :: rest) (toString d.year)
        have hr := ratDiv_bounds (dayOfYearSpec d - 1) (daysInYearSpec d.year - 1)
          (by omega) (by omega) (by omega)
        refine ⟨?_, ?_, ?_, ?_⟩
        · rcases hidxb with hn | ⟨hge, _⟩
          · exact absurd hn hidx
          · exact hge
        · rcases hidxb with hn | ⟨_, hlt⟩
          · exact absurd hn hidx
          · exact hlt
        · show 0 ≤ ((d.dayNumber - jsMakeDay d.year 0 1 : Int) : ℚ) /
            ((jsMakeDay d.year 11 31 - jsMakeDay d.year 0 1 : Int) : ℚ)
          rw [dayOfYear_diff d hv, yearSpan_eq]
          exact hr.1
        · show ((d.dayNumber - jsMakeDay d.year 0 1 : Int) : ℚ) /
            ((jsMakeDay d.year 11 31 - jsMakeDay d.year 0 1 : Int) : ℚ) ≤ 1
          rw [dayOfYear_diff d hv, yearSpan_eq]
          exact hr.2
    · have h1f : matchYearCol c = false := by
        revert h1; cases matchYearCol c <;> simp
      by_cases h2 : matchQuarterCol c = true
      · simp only [findTodayColumnPosition, h1f, h2, if_true, Bool.false_eq_true,
          if_false] at h
        by_cases hidx : jsIndexOf (c :: rest)
            ("Q" ++ toString ((d.month - 1) / 3 + 1) ++ " " ++ toString d.year) = -1
        · rw [if_pos hidx] at h
          simp at h
        · rw [if_neg hidx] at h
          obtain rfl := Option.some.inj h
          have hq := quarter_bounds d hv
          simp only [quarterOfSpec] at hq
          have hidxb := jsIndexOf_lt_length (c :: rest)
            ("Q" ++ toString ((d.month - 1) / 3 + 1) ++ " " ++ toString d.year)
          have hr := ratDiv_bounds (daysSinceQuarterStart d)
            (quarterSpanSpec d.year ((d.month - 1) / 3 + 1) - 1)
            (by omega) (by omega) (by omega)
          refine ⟨?_, ?_, ?_, ?_⟩
          · rcases hidxb with hn | ⟨hge, _⟩
            · exact absurd hn hidx
            · exact hge
          · rcases hidxb with hn | ⟨_, hlt⟩
            · exact absurd hn hidx
            · exact hlt
          · show 0 ≤ ((d.dayNumber -
                jsMakeDay d.year (((d.month - 1) / 3 + 1 - 1) * 3) 1 : Int) : ℚ) /
              ((jsMakeDay d.year (((d.month - 1) / 3 + 1 - 1) * 3 + 3) 0 -
                jsMakeDay d.year (((d.month - 1) / 3 + 1 - 1) * 3) 1 : Int) : ℚ)
            rw [quarterStart_diff d hv, quarterSpan_diff d hv]
            exact hr.1
          · show ((d.dayNumber -
                jsMakeDay d.year (((d.month - 1) / 3 + 1 - 1) * 3) 1 : Int) : ℚ) /
              ((jsMakeDay d.year (((d.month - 1) / 3 + 1 - 1) * 3 + 3) 0 -
                jsMakeDay d.year (((d.month - 1) / 3 + 1 - 1) * 3) 1 : Int) : ℚ) ≤ 1
            rw [quarterStart_diff d hv, quarterSpan_diff d hv]
            exact hr.2
      · have h2f : matchQuarterCol c = false := by
          revert h2; cases matchQuarterCol c <;> simp
        by_cases h3 : matchMonthCol c = true
        · simp only [findTodayColumnPosition, h1f, h2f, h3, if_true,
            Bool.false_eq_true, if_false] at h
          by_cases hidx : jsIndexOf (c :: rest)
              (monthShortName d.month ++ " " ++ toString d.year) = -1
          · rw [if_pos hidx] at h
            simp at h
          · rw [if_neg hidx] at h
            obtain rfl := Option.some.inj h
            obtain ⟨hm1, hm2, hd1, hd2⟩ := hv
            have hge := daysInMonth_ge d.year d.month hm1 hm2
            have hidxb := jsIndexOf_lt_length (c :: rest)
              (monthShortName d.month ++ " " ++ toString d.year)
            have hr := ratDiv_bounds d.day (daysInMonth d.year d.month)
              (by omega) (by omega) (by omega)
            refine ⟨?_, ?_, ?_, ?_⟩
            · rcases hidxb with hn | ⟨hge2, _⟩
              · exact absurd hn hidx
              · exact hge2
            · rcases hidxb with hn | ⟨_, hlt⟩
              · exact absurd hn hidx
              · exact hlt
            · show 0 ≤ ((d.day : Int) : ℚ) /
                ((jsGetDate (jsMakeDay d.year (d.month - 1 + 1) 0) : Int) : ℚ)
              rw [monthSpan_eq d ⟨hm1, hm2, hd1, hd2⟩]
              exact hr.1
            · show ((d.day : Int) : ℚ) /
                ((jsGetDate (jsMakeDay d.year (d.month - 1 + 1) 0) : Int) : ℚ) ≤ 1
              rw [monthSpan_eq d ⟨hm1, hm2, hd1, hd2⟩]
              exact hr.2
        · have h3f : matchMonthCol c = false := by
            revert h3; cases matchMonthCol c <;> simp
          by_cases h4 : matchWeekCol c = true
          · simp only [findTodayColumnPosition, h1f, h2f, h3f, h4, if_true,
              Bool.false_eq_true, if_false] at h
            by_cases hidx : jsIndexOf (c :: rest)
                ("W" ++ toString (getWeek d) ++ " " ++ toString d.year) = -1
            · rw [if_pos hidx] at h
              simp at h
            · rw [if_neg hidx] at h
              obtain rfl := Option.some.inj h
              have hw := weekday_bounds d.dayNumber
              have hidxb := jsIndexOf_lt_length (c :: rest)
                ("W" ++ toString (getWeek d) ++ " " ++ toString d.year)
              have hc0 : (0 : ℚ) ≤ ((weekdayOfDay d.dayNumber : Int) : ℚ) := by
                exact_mod_cast hw.1
              have hc6 : ((weekdayOfDay d.dayNumber : Int) : ℚ) ≤ 6 := by
                exact_mod_cast hw.2
              refine ⟨?_, ?_, ?_, ?_⟩
              · rcases hidxb with hn | ⟨hge, _⟩
                · exact absurd hn hidx
                · exact hge
              · rcases hidxb with hn | ⟨_, hlt⟩
                · exact absurd hn hidx
                · exact hlt
              · show 0 ≤ (((weekdayOfDay d.dayNumber : Int) : ℚ) + 1/2) / 7
                apply div_nonneg _ (by norm_num)
                linarith
              · show (((weekdayOfDay d.dayNumber : Int) : ℚ) + 1/2) / 7 ≤ 1
                rw [div_le_one (by norm_num : (0:ℚ) < 7)]
                linarith
          · have h4f : matchWeekCol c = false := by
              revert h4; cases matchWeekCol c <;> simp
            simp only [findTodayColumnPosition, h1f, h2f, h3f, h4f,
              Bool.false_eq_true, if_false] at h
            simp at h

/-- C1 witness: bounds at a concrete non-null result — November 13 2025 over
["Nov 2025"] returns index 0 (valid for the 1-column list) and fraction
13/30 in [0, 1]. -/
theorem claim_C1_witness :
    0 ≤ (⟨0, (13 : ℚ)/30⟩ : TodayPosition).index ∧
      (⟨0, (13 : ℚ)/30⟩ : TodayPosition).index < (["Nov 2025"] : List String).length ∧
      0 ≤ (⟨0, (13 : ℚ)/30⟩ : TodayPosition).percentage ∧
      (⟨0, (13 : ℚ)/30⟩ : TodayPosition).percentage ≤ 1 := by
  refine claim_C1_amended ⟨2025, 11, 13⟩ (by decide) ["Nov 2025"] ⟨0, 13/30⟩ ?_
  rw [resolver_month_eval ⟨2025, 11, 13⟩ (by decide) "Nov 2025" [] (by decide)
    (by decide)]
  norm_num [show daysInMonth 2025 11 = 30 from by decide,
    show jsIndexOf ["Nov 2025"] (monthShortName 11 ++ " " ++ toString (2025 : Int)) = 0
      from by decide]

/-! ## Retry-loop lemmas -/

theorem callGeminiAux_ok {α : Type} (fetch : Nat → FetchResponse)
    (parse : String → Except String α) (attempt remaining : Nat) (v : α)
    (h : processAttempt parse (fetch attempt) = .ok v) :
    callGeminiAux fetch parse attempt (remaining + 1) = (.ok v, []) := by
  simp only [callGeminiAux, h]

theorem callGeminiAux_err_last {α : Type} (fetch : Nat → FetchResponse)
    (parse : String → Except String α) (attempt : Nat) (e : CallError)
    (h : processAttempt parse (fetch attempt) = .error e) :
    callGeminiAux fetch parse attempt (0 + 1) = (.error e, []) := by
  simp [callGeminiAux, h]

theorem callGeminiAux_err_step {α : Type} (fetch : Nat → FetchResponse)
    (parse : String → Except String α) (attempt remaining : Nat) (e : CallError)
    (h : processAttempt parse (fetch attempt) = .error e) :
    callGeminiAux fetch parse attempt (remaining + 1 + 1) =
      ((callGeminiAux fetch parse (attempt + 1) (remaining + 1)).1,
        1000 * ((attempt : Int) + 1) ::
          (callGeminiAux fetch parse (attempt + 1) (remaining + 1)).2) := by
  simp only [callGeminiAux, h, Nat.succ_ne_zero, if_false]

/-- C8 (amended): the completion helper makes up to 3 attempts; a failure on
a non-final attempt sleeps 1000·(attempt+1) ms — so 1 s after the first
failure and 2 s after the second, with no sleep after the final failure;
success returns the parsed first content part of the first candidate, and
when all 3 attempts fail the last error is propagated. -/
theorem claim_C8_amended {α : Type} (fetch : Nat → FetchResponse)
    (parse : String → Except String α) :
    (∀ v, processAttempt parse (fetch 0) = .ok v →
        callGemini fetch parse = (.ok v, [])) ∧
    (∀ e0 v, processAttempt parse (fetch 0) = .error e0 →
        processAttempt parse (fetch 1) = .ok v →
        callGemini fetch parse = (.ok v, [1000])) ∧
    (∀ e0 e1 v, processAttempt parse (fetch 0) = .error e0 →
        processAttempt parse (fetch 1) = .error e1 →
        processAttempt parse (fetch 2) = .ok v →
        callGemini fetch parse = (.ok v, [1000, 2000])) ∧
    (∀ e0 e1 e2, processAttempt parse (fetch 0) = .error e0 →
        processAttempt parse (fetch 1) = .error e1 →
        processAttempt parse (fetch 2) = .error e2 →
        callGemini fetch parse = (.error e2, [1000, 2000])) ∧
    (∀ (resp : FetchResponse) (c : Candidate) (cs : List Candidate)
        (ct : GContent) (p : GPart) (ps : List GPart),
        resp.ok = true → resp.result.candidates = some (c :: cs) →
        c.content = some ct →
        (c.safetyRatings.getD []).find? (fun r => r.blocked) = none →
        ct.parts = p :: ps →
        processAttempt parse resp = (parse p.text).mapError CallError.parseFailed) := by
  refine ⟨?_, ?_, ?_, ?_, ?_⟩
  · intro v h0
    show callGeminiAux fetch parse 0 (2 + 1) = (.ok v, [])
    exact callGeminiAux_ok fetch parse 0 2 v h0
  · intro e0 v h0 h1
    have s1 := callGeminiAux_err_step fetch parse 0 1 e0 h0
    norm_num at s1
    have s2 := callGeminiAux_ok fetch parse 1 1 v h1
    norm_num at s2
    show callGeminiAux fetch parse 0 3 = (.ok v, [1000])
    rw [s1, s2]
  · intro e0 e1 v h0 h1 h2
    have s1 := callGeminiAux_err_step fetch parse 0 1 e0 h0
    norm_num at s1
    have s2 := callGeminiAux_err_step fetch parse 1 0 e1 h1
    norm_num at s2
    have s3 := callGeminiAux_ok fetch parse 2 0 v h2
    norm_num at s3
    show callGeminiAux fetch parse 0 3 = (.ok v, [1000, 2000])
    rw [s1, s2, s3]
  · intro e0 e1 e2 h0 h1 h2
    have s1 := callGeminiAux_err_step fetch parse 0 1 e0 h0
    norm_num at s1
    have s2 := callGeminiAux_err_step fetch parse 1 0 e1 h1
    norm_num at s2
    have s3 := callGeminiAux_err_last fetch parse 2 e2 h2
    norm_num at s3
    show callGeminiAux fetch parse 0 3 = (.error e2, [1000, 2000])
    rw [s1, s2, s3]
  · intro resp c cs ct p ps hok hcand hcont hsafe hparts
    simp only [processAttempt, hok, hcand, hcont, hsafe, hparts]
    simp only [Bool.true_eq_false, if_false]
    cases hp : parse p.text <;> simp [Except.mapError, hp]

/-- C8 counterexample: when all three attempts fail, the sleeps performed
are exactly 1000 ms and 2000 ms; no 3000 ms back-off ever occurs, contrary
to the claimed 1s, 2s, 3s schedule. -/
theorem claim_C8_counterexample :
    (callGemini (fun _ => ⟨false, 500, "boom", ⟨none⟩⟩)
        (fun s => (.ok s : Except String String))).2 = [1000, 2000] ∧
      (3000 : Int) ∉ (callGemini (fun _ => ⟨false, 500, "boom", ⟨none⟩⟩)
        (fun s => (.ok s : Except String String))).2 := by
  constructor
  · rfl
  · decide

/-- C8 witness: three failing attempts against a stubbed 500 response
propagate the final HTTP error after sleeping 1 s then 2 s. -/
theorem claim_C8_witness :
    callGemini (fun _ => ⟨false, 500, "boom", ⟨none⟩⟩)
        (fun s => (.ok s : Except String String)) =
      (.error (.apiStatus 500 "boom"), [1000, 2000]) :=
  (claim_C8_amended (fun _ => ⟨false, 500, "boom", ⟨none⟩⟩)
      (fun s => (.ok s : Except String String))).2.2.2.1
    (.apiStatus 500 "boom") (.apiStatus 500 "boom") (.apiStatus 500 "boom")
    rfl rfl rfl

/-- C9: the extraction step sorts the uploads by name (the result is a
sorted permutation of the input), concatenates each file's extracted text
wrapped in its Start/End delimiter pair in sorted order, and aborts the
whole request on the first failing extraction — partial success is never
returned. -/
theorem claim_C9 (extractDocx : String → Except String String)
    (files : List UploadFile) (textOf : UploadFile → String) :
    (sortByName files).Perm files ∧
    List.Pairwise (fun a b : UploadFile => a.originalname ≤ b.originalname)
      (sortByName files) ∧
    ((∀ f ∈ files, extractFileText extractDocx f = .ok (textOf f)) →
      extractResearch extractDocx files =
        .ok (corpusOf textOf (sortByName files),
          (sortByName files).map UploadFile.originalname)) ∧
    ((∃ f ∈ files, ∃ e, extractFileText extractDocx f = .error e) →
      ∃ e, extractResearch extractDocx files = .error e) := by
  have hperm : (sortByName files).Perm files := List.perm_insertionSort _ files
  refine ⟨hperm, ?_, ?_, ?_⟩
  · haveI : IsTotal UploadFile (fun a b => a.originalname ≤ b.originalname) :=
      ⟨fun a b => le_total a.originalname b.originalname⟩
    haveI : IsTrans UploadFile (fun a b => a.originalname ≤ b.originalname) :=
      ⟨fun a b c hab hbc => le_trans hab hbc⟩
    exact List.sorted_insertionSort _ files
  · intro h
    have h2 : ∀ f ∈ sortByName files, extractFileText extractDocx f = .ok (textOf f) :=
      fun f hf => h f (hperm.mem_iff.mp hf)
    unfold extractResearch
    rw [extractResearchGo_ok extractDocx textOf _ h2]
    simp [show ∀ s : String, "" ++ s = s from fun s => by cases s; rfl]
  · rintro ⟨f, hf, e, he⟩
    unfold extractResearch
    exact extractResearchGo_error extractDocx _ ⟨f, hperm.mem_iff.mpr hf, e, he⟩ "" []

/-- C9 witness: two plain-text uploads are emitted in name order with their
delimiter wrappers; no extraction fails, so the call succeeds. -/
theorem claim_C9_witness :
    extractResearch (fun _ => .error "unused")
        [⟨"b.txt", "text/plain", "B"⟩, ⟨"a.txt", "text/plain", "A"⟩] =
      .ok (corpusOf (fun f => f.buffer)
            (sortByName [⟨"b.txt", "text/plain", "B"⟩, ⟨"a.txt", "text/plain", "A"⟩]),
          (sortByName [⟨"b.txt", "text/plain", "B"⟩,
            ⟨"a.txt", "text/plain", "A"⟩]).map UploadFile.originalname) := by
  refine (claim_C9 (fun _ => .error "unused") _ (fun f => f.buffer)).2.2.1 ?_
  intro f hf
  fin_cases hf <;> rfl
